import Mathlib

/-!
Verification of the unit data model of `ship/isis/datunits/isisunit.py`:
the `AIsisUnit` row operations (`addRow`, `updateRow`, `checkIncreases`,
`rowDataType`, `rowDataTypeAsList`), the `CommentUnit` and the `HeaderUnit`,
shallowly embedded over a text model where a Python string is a `List Char`.

Collaborator classes that the repository defines outside the sources at hand
(`HeadDataItem` from `ship.isis.headdata`, the row-collection classes from
`ship.data_structures`) are modelled from the specification and marked so in
their doc comments.
-/

/-- A Python string, modelled as its list of characters. -/
abbrev Line := List Char

/-- The characters Python's `str.strip()` removes by default. -/
def isPySpace (c : Char) : Bool :=
  c = ' ' || c = '\t' || c = '\n' || c = '\r' || c = '\x0b' || c = '\x0c'

/-- Python `str.strip()`: whitespace removed from both ends. -/
def pyStrip (l : Line) : Line :=
  ((l.dropWhile isPySpace).reverse.dropWhile isPySpace).reverse

/-- Python `str.rstrip()`: whitespace removed from the right end only.
This follows the spec's words ("trailing whitespace stripped per line") and is
used only to compare the spec's description with what the source does. -/
def pyRstrip (l : Line) : Line :=
  (l.reverse.dropWhile isPySpace).reverse

/-- Python `'{:>10}'.format(s)`: right-justify in a field of width 10
(strings longer than 10 are returned unchanged). -/
def rjust10 (l : Line) : Line := List.replicate (10 - l.length) ' ' ++ l

/-- Python `'{:<10}'.format(s)`: left-justify in a field of width 10. -/
def ljust10 (l : Line) : Line := l ++ List.replicate (10 - l.length) ' '

/-- Python slicing `s[a:b]` for `0 ≤ a ≤ b` (tolerant of short strings). -/
def pySlice (l : Line) (a b : Nat) : Line := (l.take b).drop a

/-- Python `s.split('\n')`: always returns at least one piece. -/
def splitNl : Line → List Line
  | [] => [[]]
  | c :: rest =>
    match splitNl rest with
    | [] => [[c]]
    | h :: t => if c = '\n' then [] :: h :: t else (c :: h) :: t

/-- Indexing `data[i]` into the raw line list (theorems supply bounds). -/
def getLine (data : List Line) (i : Nat) : Line := data.getD i []

/-- Decimal digits of a natural number, as Python `str(n)` produces them. -/
def natChars (n : Nat) : Line := Nat.toDigits 10 n

/-- Python `str(i)` for an integer. -/
def intChars (i : Int) : Line :=
  if i < 0 then '-' :: natChars i.natAbs else natChars i.toNat

/-- Parse a nonempty all-digit string as a natural number. -/
def digitsToNat? (l : Line) : Option Nat :=
  if l ≠ [] ∧ l.all (fun c => c.isDigit) then
    some (l.foldl (fun acc c => acc * 10 + (c.toNat - '0'.toNat)) 0)
  else none

/-- Python `int(s)` on an already-stripped string: optional sign then digits;
`none` models the `ValueError` that `int` raises on malformed text. -/
def pyInt? (l : Line) : Option Int :=
  match l with
  | '-' :: rest => (digitsToNat? rest).map (fun n => -(n : Int))
  | '+' :: rest => (digitsToNat? rest).map (fun n => (n : Int))
  | _ => (digitsToNat? l).map (fun n => (n : Int))

/-- Python `l[:k]` on a list for an arbitrary (possibly negative) integer `k`. -/
def pySliceTo {α : Type} (l : List α) (k : Int) : List α :=
  if 0 ≤ k then l.take k.toNat else l.take ((l.length : Int) + k).toNat

/-- Python `l.insert(i, x)`: insert before position `i`, clamped to the end. -/
def pyInsert {α : Type} : Nat → List α → α → List α
  | 0, l, x => x :: l
  | _ + 1, [], x => [x]
  | n + 1, y :: l, x => y :: pyInsert n l x

/-- Python 2 truth of `a >= b` where `a` is `None` or an int and `b` an int:
`None` compares less than every integer. -/
def py2GeOptNat (a : Option Nat) (b : Nat) : Bool :=
  match a with
  | none => false
  | some i => b ≤ i

/-- The exceptions this module can raise. `notApplicableError` exists only so
that the spec's "fail with NotApplicableError" sentence is statable. -/
inductive PyError where
  | valueError (msg : String)
  | indexError (msg : String)
  | keyError (msg : String)
  | nameError (msg : String)
  | attributeError (msg : String)
  | notApplicableError
  deriving DecidableEq, Repr

/-- Python truthiness of a value that is either absent (`None`) or a number:
`None` and `0` are falsy. Used by `checkIncreases`, whose guards are
`if details['prev_value']:` and `if details['next_value']:`. -/
def pyTruthyOptInt : Option Int → Bool
  | none => false
  | some v => v != 0

/-- Modelled from the spec: a `RowDataObject` of `ship.data_structures` (not
under the sources at hand) is a typed column of row values; here its ordering
values, as a list. Ordering values (`float` in the source) are modelled as
integers, which preserves both the order and Python's truthiness of `0`. -/
structure RowDataObject where
  vals : List Int
  deriving DecidableEq, Repr

/-- Modelled from the spec: the private `_max` field of a `RowDataObject`,
which per the spec is the append position — "one past the last existing
row". -/
def RowDataObject.maxPos (d : RowDataObject) : Nat := d.vals.length

/-- Modelled from the spec: `data_obj[i]`, positional access to a column. -/
def RowDataObject.item? (d : RowDataObject) (i : Nat) : Option Int :=
  d.vals.get? i

/-- The dictionary built by `AIsisUnit._getAdjacentDataObjDetails`. -/
structure AdjDetails where
  index : Nat
  prev_value : Option Int
  next_value : Option Int
  prev_index : Option Nat
  next_index : Option Nat
  deriving DecidableEq, Repr

/-- `AIsisUnit._getAdjacentDataObjDetails` (isisunit.py lines 468-509): fetch
the values adjacent to `index` in `data_obj`, defaulting an omitted index to
`data_obj._max`. The `value` argument of the source is accepted and, as in
the source, never used. A negative index cannot arise here (`Nat`), so the
`index < 0` guard of the source is vacuous. -/
def getAdjacentDataObjDetails (d : RowDataObject) (_value : Int)
    (index : Option Nat) : AdjDetails :=
  let i := index.getD d.maxPos
  { index := i
    prev_value := if 0 < i then d.item? (i - 1) else none
    next_value := if i < d.maxPos then d.item? (i + 1) else none
    prev_index := if 0 < i then some (i - 1) else none
    next_index := if i < d.maxPos then some (i + 1) else none }

/-- `AIsisUnit.checkIncreases` (isisunit.py lines 436-465): raise `ValueError`
when the candidate is not strictly between its neighbours — but each
comparison is guarded by the Python truthiness of the fetched neighbour. -/
def checkIncreases (d : RowDataObject) (value : Int) (index : Option Nat) :
    Except PyError Unit :=
  let details := getAdjacentDataObjDetails d value index
  if pyTruthyOptInt details.prev_value ∧ ¬ details.prev_value.getD 0 < value then
    .error (.valueError "CHAINAGE must be > prev index and < next index.")
  else if pyTruthyOptInt details.next_value ∧ ¬ value < details.next_value.getD 0 then
    .error (.valueError "CHAINAGE must be > prev index and < next index.")
  else .ok ()

/-- Modelled from the spec: a `RowDataCollection` of `ship.data_structures`
(not under the sources at hand): an ordered table with named columns; a row is
the list of its values in column order. -/
structure RowDataCollection where
  colKeys : List String
  rows : List (List Int)
  deriving DecidableEq, Repr

/-- Modelled from the spec: `RowDataCollection.numberOfRows()`. -/
def RowDataCollection.numberOfRows (c : RowDataCollection) : Nat :=
  c.rows.length

/-- Modelled from the spec: `RowDataCollection.getDataObject(key)` — the named
column, or `none` (a `KeyError`) when the key is not a declared column. -/
def RowDataCollection.getDataObject (c : RowDataCollection) (key : String) :
    Option (List Int) :=
  (c.colKeys.findIdx? (fun k => k = key)).map
    (fun i => c.rows.map (fun r => r.getD i 0))

/-- Modelled from the spec: `RowDataCollection.addRow(row_vals, index)` —
insert before `index`, or append when `index` is `None`. -/
def RowDataCollection.addRow (c : RowDataCollection) (row_vals : List Int)
    (index : Option Nat) : RowDataCollection :=
  match index with
  | none => { c with rows := c.rows ++ [row_vals] }
  | some i => { c with rows := pyInsert i c.rows row_vals }

/-- The state of an `AIsisUnit` that the row operations touch: the
`has_datarows` attribute (absent on the base class, hence `Option`) and the
`row_data` dictionary of named row collections. -/
structure AIsisUnit where
  has_datarows : Option Bool
  row_data : List (String × RowDataCollection)
  deriving DecidableEq, Repr

/-- Assignment `row_data[key] = col` for a key already present. -/
def updateRowData (m : List (String × RowDataCollection)) (key : String)
    (col : RowDataCollection) : List (String × RowDataCollection) :=
  m.map (fun p => if p.1 = key then (key, col) else p)

/-- `AIsisUnit.rowDataType` (isisunit.py lines 221-248): returns the Python
value `False` when `has_datarows` is falsy; raises `AttributeError` when the
attribute was never created; otherwise looks up the collection and column,
re-raising `KeyError` on an unknown key. -/
def AIsisUnit.rowDataType (u : AIsisUnit) (key : String)
    (rowdata_key : String) : Except PyError (Bool ⊕ List Int) :=
  match u.has_datarows with
  | none => .error (.attributeError "has_datarows")
  | some false => .ok (.inl false)
  | some true =>
    match (u.row_data.lookup rowdata_key).bind
        (fun c => c.getDataObject key) with
    | none => .error (.keyError "Key does not exist in collection")
    | some obj => .ok (.inr obj)

/-- `AIsisUnit.rowDataTypeAsList` (isisunit.py lines 252-285): as
`rowDataType` but materialises the column values into a list. -/
def AIsisUnit.rowDataTypeAsList (u : AIsisUnit) (key : String)
    (rowdata_key : String) : Except PyError (Bool ⊕ List Int) :=
  match u.has_datarows with
  | none => .error (.attributeError "has_datarows")
  | some false => .ok (.inl false)
  | some true =>
    match (u.row_data.lookup rowdata_key).bind
        (fun c => c.getDataObject key) with
    | none => .error (.keyError "Key does not exist in collection")
    | some obj => .ok (.inr (List.range obj.length |>.map (fun i => obj.getD i 0)))

/-- `AIsisUnit.updateRow` (isisunit.py lines 374-394): after the bounds check
the body reads the undefined name `collection_name`, so every in-bounds call
raises `NameError`; the comparison `index >= numberOfRows()` follows the
Python 2 ordering under which `None` is less than every integer. -/
def AIsisUnit.updateRow (u : AIsisUnit) (_row_vals : List Int)
    (index : Option Nat) (rowdata_key : String) : Except PyError Unit :=
  match u.row_data.lookup rowdata_key with
  | none => .error (.keyError rowdata_key)
  | some col =>
    if py2GeOptNat index col.numberOfRows then
      .error (.indexError "Given index is outside bounds of row_collection data")
    else
      .error (.nameError "name collection_name is not defined")

/-- `AIsisUnit.addRow` (isisunit.py lines 400-431): an index at or past the
row count is replaced by `None`, then the row collection inserts or appends;
the comparison follows the Python 2 ordering under which `None` is less than
every integer. -/
def AIsisUnit.addRow (u : AIsisUnit) (row_vals : List Int)
    (rowdata_key : String) (index : Option Nat) : Except PyError AIsisUnit :=
  match u.row_data.lookup rowdata_key with
  | none => .error (.keyError rowdata_key)
  | some col =>
    let index' := if py2GeOptNat index col.numberOfRows then none else index
    .ok { u with
          row_data := updateRowData u.row_data rowdata_key
            (col.addRow row_vals index') }

/-- The state of a `CommentUnit`: the `no_of_rows` attribute (created only by
`addCommentText` and `readUnitData`, hence `Option`) and the stored lines. -/
structure CommentUnit where
  no_of_rows : Option Int
  data : List Line
  deriving DecidableEq, Repr

/-- `CommentUnit.addCommentText` (isisunit.py lines 581-585): split the text
on newlines, recompute the stored count, append each line stripped. -/
def CommentUnit.addCommentText (s : CommentUnit) (text : Line) : CommentUnit :=
  let ts := splitNl text
  { no_of_rows := some ((s.data.length + ts.length : Nat) : Int)
    data := s.data ++ ts.map pyStrip }

/-- `CommentUnit.__init__` (isisunit.py lines 569-578): start with an empty
line list and no `no_of_rows` attribute; a non-blank `text` argument is passed
to `addCommentText`. -/
def CommentUnit.construct (text : Line) : CommentUnit :=
  if pyStrip text = [] then { no_of_rows := none, data := [] }
  else CommentUnit.addCommentText { no_of_rows := none, data := [] } text

/-- `CommentUnit.readUnitData` (isisunit.py lines 587-598): parse the count
from the line after the tag, append that many following lines stripped, and
return the final loop cursor minus one. A count that fails to parse is the
`ValueError` of Python's `int`. -/
def CommentUnit.readUnitData (s : CommentUnit) (data : List Line)
    (file_line : Nat) : Except PyError (CommentUnit × Nat) :=
  match pyInt? (pyStrip (getLine data (file_line + 1))) with
  | none => .error (.valueError "invalid literal for int")
  | some n =>
    let k := n.toNat
    .ok ({ no_of_rows := some n
           data := s.data ++
             (List.range k).map (fun i => pyStrip (getLine data (file_line + 2 + i))) },
         file_line + 1 + k)

/-- `CommentUnit.getData` (isisunit.py lines 600-612): tag, count, stored
lines; truncated to `no_of_rows + 2` entries when longer. Reading a missing
`no_of_rows` attribute is an `AttributeError`. -/
def CommentUnit.getData (s : CommentUnit) : Except PyError (List Line) :=
  match s.no_of_rows with
  | none => .error (.attributeError "no_of_rows")
  | some n =>
    let output := ljust10 ("COMMENT".toList) :: rjust10 (intChars n) :: s.data
    .ok (if n + 2 < (output.length : Int) then pySliceTo output (n + 2) else output)

/-- The type tags `dt.STRING`, `dt.INT`, `dt.FLOAT` of `ship.data_structures`. -/
inductive DType where
  | string
  | int
  | float
  deriving DecidableEq, Repr

/-- Modelled from the spec: a `HeadDataItem` of `ship.isis.headdata` (not
under the sources at hand): one fixed-width typed header field — the stripped
raw text it was constructed from, whether its format template is the
width-10 right-justify template `'{:>10}'` (`fmtW = true`) or the empty
template, its (line, column) position, its type tag and decimal precision. -/
structure HeadDataItem where
  value : Line
  fmtW : Bool
  row : Nat
  col : Nat
  dtype : DType
  dps : Option Nat
  deriving DecidableEq, Repr

/-- Modelled from the spec: `HeadDataItem.format(auto_newline)` — the value
right-justified to width 10 when the width-10 template applies, preceded by a
newline when `auto_newline` is set and the field starts a new physical line. -/
def HeadDataItem.format (h : HeadDataItem) (auto_newline : Bool) : Line :=
  let out := if h.fmtW then rjust10 h.value else h.value
  if auto_newline && h.col == 0 && h.row != 0 then '\n' :: out else out

/-- The `head_data` dictionary of a `HeaderUnit`: its sixteen fixed keys. -/
structure HeaderHeadData where
  name : HeadDataItem
  revision : HeadDataItem
  node_count : HeadDataItem
  fr_lower : HeadDataItem
  fr_upper : HeadDataItem
  min_depth : HeadDataItem
  direct_method : HeadDataItem
  unknown : HeadDataItem
  water_temp : HeadDataItem
  flow : HeadDataItem
  head : HeadDataItem
  math_damp : HeadDataItem
  pivot : HeadDataItem
  relax : HeadDataItem
  dummy : HeadDataItem
  roughness : HeadDataItem
  deriving DecidableEq, Repr

/-- `HeaderUnit.readUnitData` (isisunit.py lines 644-669): slice the fixed
character ranges of the first six lines, strip them, store them as typed
`HeadDataItem`s, and return the cursor advanced by 7. -/
def HeaderUnit.readUnitData (unit_data : List Line) (file_line : Nat) :
    HeaderHeadData × Nat :=
  ({ name := ⟨pyStrip (getLine unit_data 0), false, 0, 0, DType.string, none⟩
     revision := ⟨pyStrip (getLine unit_data 1), true, 1, 0, DType.string, none⟩
     node_count := ⟨pyStrip (pySlice (getLine unit_data 2) 0 10), true, 2, 0, DType.int, none⟩
     fr_lower := ⟨pyStrip (pySlice (getLine unit_data 2) 10 20), true, 2, 1, DType.float, some 3⟩
     fr_upper := ⟨pyStrip (pySlice (getLine unit_data 2) 20 30), true, 2, 2, DType.float, some 3⟩
     min_depth := ⟨pyStrip (pySlice (getLine unit_data 2) 30 40), true, 2, 3, DType.float, some 3⟩
     direct_method := ⟨pyStrip (pySlice (getLine unit_data 2) 40 50), true, 2, 4, DType.float, some 3⟩
     unknown := ⟨pyStrip (pySlice (getLine unit_data 2) 50 60), true, 2, 5, DType.string, none⟩
     water_temp := ⟨pyStrip (pySlice (getLine unit_data 3) 0 10), true, 3, 0, DType.float, some 3⟩
     flow := ⟨pyStrip (pySlice (getLine unit_data 3) 10 20), true, 3, 1, DType.float, some 3⟩
     head := ⟨pyStrip (pySlice (getLine unit_data 3) 20 30), true, 3, 2, DType.float, some 3⟩
     math_damp := ⟨pyStrip (pySlice (getLine unit_data 3) 30 40), true, 3, 3, DType.float, some 3⟩
     pivot := ⟨pyStrip (pySlice (getLine unit_data 3) 40 50), true, 3, 4, DType.float, some 3⟩
     relax := ⟨pyStrip (pySlice (getLine unit_data 3) 50 60), true, 3, 5, DType.float, some 3⟩
     dummy := ⟨pyStrip (pySlice (getLine unit_data 3) 60 70), true, 3, 6, DType.float, some 3⟩
     roughness := ⟨pyStrip (getLine unit_data 5), true, 5, 0, DType.string, none⟩ },
   file_line + 7)

/-- `HeaderUnit.getData` (isisunit.py lines 672-693): format the fifteen
fields of `key_order` in order, join, split on the newlines the formatter
introduced, then append the `RAD FILE` marker, the formatted roughness and
the `END GENERAL` trailer. -/
def HeaderUnit.getData (hd : HeaderHeadData) : List Line :=
  let out := ([hd.name, hd.revision, hd.node_count, hd.fr_lower, hd.fr_upper,
               hd.min_depth, hd.direct_method, hd.unknown, hd.water_temp,
               hd.flow, hd.head, hd.math_damp, hd.pivot, hd.relax,
               hd.dummy].map (fun h => h.format true)).flatten
  splitNl out ++ ["RAD FILE".toList, hd.roughness.format false, "END GENERAL".toList]

/-- Total number of text lines contributed by a sequence of
`addCommentText` calls: each call contributes one line per newline-split
piece of its argument. -/
def countLines (ts : List Line) : Nat :=
  (ts.map (fun t => (splitNl t).length)).sum

/-- A unit holding one `main` row collection with a single row; input for the
`updateRow` evaluation. -/
def c2Unit : AIsisUnit :=
  { has_datarows := some true
    row_data := [("main", { colKeys := ["chainage"], rows := [[1]] })] }

/-- A well-formed COMMENT block whose single content line carries leading
whitespace. -/
def c5data : List Line := ["COMMENT".toList, "1".toList, "  hi".toList]

/-- A unit holding one `main` row collection with two rows. -/
def c8Unit : AIsisUnit :=
  { has_datarows := some true
    row_data := [("main", { colKeys := ["chainage"], rows := [[1], [3]] })] }

/-- A unit with an empty `row_data` mapping and `has_datarows` set `False`,
as `HeaderUnit.__init__` leaves it. -/
def c9Unit : AIsisUnit := { has_datarows := some false, row_data := [] }

/-- A seven-line HEADER block used as concrete input. -/
def c4Data : List Line :=
  ["Example model".toList,
   "#REVISION#1".toList,
   "        12     0.750     0.900     0.100     0.001      FULL".toList,
   "    10.000     0.010     0.010     0.700     0.100     0.700     0.000".toList,
   "RAD FILE".toList,
   "    0.100".toList,
   "END GENERAL".toList]

/-- A minimal seven-line newline-free HEADER block for the round-trip
witness. -/
def c3Data : List Line :=
  ["T".toList, "r".toList, "1".toList, "2".toList, "x".toList,
   "R".toList, "E".toList]

section Lemmas

variable {α : Type}

lemma dropWhile_idem (p : α → Bool) :
    ∀ l : List α, (l.dropWhile p).dropWhile p = l.dropWhile p
  | [] => rfl
  | c :: t => by
    cases hp : p c <;> simp [List.dropWhile_cons, hp, dropWhile_idem p t]

lemma dropWhile_eq_cons_self (p : α → Bool) (c : α) (t : List α)
    (h : (c :: t).dropWhile p = c :: t) : p c = false := by
  cases hp : p c
  · rfl
  · exfalso
    rw [List.dropWhile_cons, hp] at h
    have hle : (t.dropWhile p).length ≤ t.length :=
      (List.dropWhile_sublist p).length_le
    have := congrArg List.length h
    simp at this
    omega

lemma dropWhile_replicate_space (n : Nat) (l : Line) :
    (List.replicate n ' ' ++ l).dropWhile isPySpace = l.dropWhile isPySpace := by
  induction n with
  | zero => simp
  | succ k ih =>
    rw [List.replicate_succ, List.cons_append, List.dropWhile_cons,
        show isPySpace ' ' = true from rfl, if_pos rfl]
    exact ih

lemma pyStrip_rjust10 (l : Line) : pyStrip (rjust10 l) = pyStrip l := by
  simp [pyStrip, rjust10, dropWhile_replicate_space]

lemma pyStrip_prefix (l : Line) : pyStrip l <+: l.dropWhile isPySpace := by
  unfold pyStrip
  have h1 : (l.dropWhile isPySpace).reverse.dropWhile isPySpace <:+
      (l.dropWhile isPySpace).reverse := List.dropWhile_suffix _
  have h2 := List.reverse_prefix.mpr h1
  rwa [List.reverse_reverse] at h2

lemma pyStrip_dropWhile (l : Line) :
    (pyStrip l).dropWhile isPySpace = pyStrip l := by
  rcases hp : pyStrip l with _ | ⟨c, t⟩
  · rfl
  · have hpre := pyStrip_prefix l
    rw [hp] at hpre
    obtain ⟨r, hr⟩ := hpre
    have hdw : (l.dropWhile isPySpace).dropWhile isPySpace = l.dropWhile isPySpace :=
      dropWhile_idem _ _
    rw [← hr] at hdw
    have hc : isPySpace c = false := by
      rw [List.cons_append, List.dropWhile_cons] at hdw
      cases hic : isPySpace c
      · rfl
      · exfalso
        rw [hic] at hdw
        simp only [if_pos rfl] at hdw
        have hle : ((t ++ r).dropWhile isPySpace).length ≤ (t ++ r).length :=
          (List.dropWhile_sublist isPySpace).length_le
        have := congrArg List.length hdw
        simp at this hle
        omega
    rw [List.dropWhile_cons, hc]
    simp

lemma pyStrip_idem (l : Line) : pyStrip (pyStrip l) = pyStrip l := by
  conv_lhs => rw [pyStrip, pyStrip_dropWhile]
  have : (pyStrip l).reverse = (l.dropWhile isPySpace).reverse.dropWhile isPySpace := by
    rw [pyStrip, List.reverse_reverse]
  rw [this, dropWhile_idem, ← this, List.reverse_reverse]

lemma pyStrip_length_le (l : Line) : (pyStrip l).length ≤ l.length := by
  have h1 : (l.dropWhile isPySpace).length ≤ l.length :=
    (List.dropWhile_sublist isPySpace).length_le
  have h2 : ((l.dropWhile isPySpace).reverse.dropWhile isPySpace).length ≤
      (l.dropWhile isPySpace).reverse.length :=
    (List.dropWhile_sublist isPySpace).length_le
  simp [pyStrip] at *
  omega

lemma pyStrip_subset (l : Line) : pyStrip l ⊆ l := by
  intro c hc
  simp only [pyStrip, List.mem_reverse] at hc
  have hc2 := (List.dropWhile_sublist isPySpace).subset hc
  rw [List.mem_reverse] at hc2
  exact (List.dropWhile_sublist isPySpace).subset hc2

lemma pySlice_length_le (l : Line) (a b : Nat) :
    (pySlice l a b).length ≤ b - a := by
  simp [pySlice]
  omega

lemma pySlice_subset (l : Line) (a b : Nat) : pySlice l a b ⊆ l := by
  intro c hc
  exact (List.take_sublist _ _).subset ((List.drop_sublist _ _).subset hc)

lemma rjust10_length (l : Line) (h : l.length ≤ 10) : (rjust10 l).length = 10 := by
  simp [rjust10]
  omega

lemma nl_not_mem_rjust10 (l : Line) (h : '\n' ∉ l) : '\n' ∉ rjust10 l := by
  intro hc
  rcases List.mem_append.mp hc with h1 | h1
  · exact absurd (List.mem_replicate.mp h1).2 (by decide)
  · exact h h1

lemma splitNl_ne_nil : ∀ l : Line, splitNl l ≠ []
  | [] => by simp [splitNl]
  | c :: t => by
    rw [splitNl]
    rcases h : splitNl t with _ | ⟨x, xs⟩
    · simp
    · dsimp
      split <;> simp

lemma splitNl_cons_nl (l : Line) : splitNl ('\n' :: l) = [] :: splitNl l := by
  rw [splitNl]
  rcases h : splitNl l with _ | ⟨x, xs⟩
  · exact absurd h (splitNl_ne_nil l)
  · simp

lemma splitNl_no_nl : ∀ l : Line, '\n' ∉ l → splitNl l = [l]
  | [], _ => rfl
  | c :: t, h => by
    have hc : ¬ c = '\n' := fun hcc => h (hcc ▸ List.mem_cons_self c t)
    have ht : '\n' ∉ t := fun htt => h (List.mem_cons_of_mem c htt)
    rw [splitNl, splitNl_no_nl t ht]
    simp [hc]

lemma splitNl_append (a : Line) {b : Line} {h : Line} {t : List Line}
    (ha : '\n' ∉ a) (hb : splitNl b = h :: t) :
    splitNl (a ++ b) = (a ++ h) :: t := by
  induction a with
  | nil => simpa using hb
  | cons c a' ih =>
    have hc : ¬ c = '\n' := fun hcc => ha (hcc ▸ List.mem_cons_self c a')
    have ha' : '\n' ∉ a' := fun htt => ha (List.mem_cons_of_mem c htt)
    rw [List.cons_append, splitNl, ih ha']
    simp [hc]

lemma splitNl_block (a b : Line) (ha : '\n' ∉ a) :
    splitNl (a ++ '\n' :: b) = a :: splitNl b := by
  rcases hb : splitNl b with _ | ⟨x, xs⟩
  · exact absurd hb (splitNl_ne_nil b)
  · rw [splitNl_append a ha (by rw [splitNl_cons_nl, hb]), List.append_nil]

end Lemmas

section SliceLemmas

lemma pySlice_ten_left {x y : Line} (hx : x.length = 10) :
    pySlice (x ++ y) 0 10 = x := by
  simp [pySlice, List.take_left' hx]

lemma pySlice_append_shift {x y : Line} (hx : x.length = 10) {a b : Nat}
    (ha : 10 ≤ a) (hb : 10 ≤ b) :
    pySlice (x ++ y) a b = pySlice y (a - 10) (b - 10) := by
  obtain ⟨a', rfl⟩ : ∃ a', a = 10 + a' := ⟨a - 10, by omega⟩
  obtain ⟨b', rfl⟩ : ∃ b', b = 10 + b' := ⟨b - 10, by omega⟩
  unfold pySlice
  rw [← hx, List.take_append, List.drop_append]
  simp

lemma range_map_getD_eq_take_drop (data : List Line) (a k : Nat)
    (h : a + k ≤ data.length) :
    (List.range k).map (fun i => getLine data (a + i)) =
      (data.drop a).take k := by
  apply List.ext_getElem
  · simp
    omega
  · intro i h1 h2
    simp only [List.getElem_map, List.getElem_range, List.getElem_take,
      List.getElem_drop, getLine]
    rw [List.getD_eq_getElem?_getD, List.getElem?_eq_getElem (by simp at h1 ⊢; omega)]
    simp

end SliceLemmas

/-- C1: the claim says `checkIncreases` raises `ValueError` exactly when the
candidate is not strictly greater than the previous value (whenever the
position is greater than 0). The code violates this — and its own docstring
"Checks that: prev_value < value < next_value" — when the previous value is
`0`, because the guard `if details['prev_value']:` tests Python truthiness
rather than presence: for the column `[0, 5, 9]`, candidate `-1` at index 1,
the previous value `0` exists and `-1` is not greater than it, yet
`checkIncreases` raises nothing. -/
theorem c1_checkIncreases_skips_zero_prev :
    checkIncreases ⟨[0, 5, 9]⟩ (-1) (some 1) = .ok () ∧
    (getAdjacentDataObjDetails ⟨[0, 5, 9]⟩ (-1) (some 1)).prev_value = some 0 ∧
    ¬ ((0 : Int) < -1) :=
  ⟨rfl, rfl, by decide⟩

/-- C2: the claim says `updateRow` replaces the row in place after the
ordering check. In the code every in-bounds call instead raises `NameError`
(the body reads the undefined name `collection_name` and the nonexistent
attribute `self.row_collection`), while an out-of-bounds index does raise
`IndexError` as claimed: evaluated on a unit holding one row. -/
theorem c2_updateRow_raises_nameerror :
    c2Unit.updateRow [7] (some 0) "main" =
      .error (.nameError "name collection_name is not defined") ∧
    c2Unit.updateRow [7] (some 5) "main" =
      .error (.indexError "Given index is outside bounds of row_collection data") :=
  ⟨rfl, rfl⟩

/-- C9 counterexample: on a unit with empty `row_data` (and `has_datarows`
`False`, as `HeaderUnit.__init__` leaves it), `rowDataType` and
`rowDataTypeAsList` return the ordinary Python value `False`; they do not
fail with `NotApplicableError` as the claim states. -/
theorem c9_row_accessor_false_cex :
    c9Unit.row_data = [] ∧
    c9Unit.rowDataType "chainage" "main" = .ok (.inl false) ∧
    c9Unit.rowDataTypeAsList "chainage" "main" = .ok (.inl false) ∧
    c9Unit.rowDataType "chainage" "main" ≠ .error .notApplicableError :=
  ⟨rfl, rfl, rfl, by
    rw [show c9Unit.rowDataType "chainage" "main" = .ok (.inl false) from rfl]
    simp⟩

/-- C9 amended: for every unit whose `has_datarows` flag is `False` (the
flag the accessors actually test), `rowDataType` and `rowDataTypeAsList`
return the ordinary value `False` instead of raising anything. -/
theorem c9_row_accessor_returns_false (u : AIsisUnit) (key rk : String)
    (h : u.has_datarows = some false) :
    u.rowDataType key rk = .ok (.inl false) ∧
    u.rowDataTypeAsList key rk = .ok (.inl false) := by
  simp [AIsisUnit.rowDataType, AIsisUnit.rowDataTypeAsList, h]

/-- C9 witness: the amended theorem applied to the concrete unit. -/
theorem c9_row_accessor_returns_false_witness :
    c9Unit.has_datarows = some false ∧
    c9Unit.rowDataType "x" "main" = .ok (.inl false) ∧
    c9Unit.rowDataTypeAsList "x" "main" = .ok (.inl false) :=
  ⟨rfl, (c9_row_accessor_returns_false c9Unit "x" "main" rfl).1,
    (c9_row_accessor_returns_false c9Unit "x" "main" rfl).2⟩

/-- C10: a `CommentUnit` constructed with the default empty text has no
`no_of_rows` attribute, so `getData` on it raises `AttributeError`. -/
theorem c10_fresh_comment_getData_attr_error :
    (CommentUnit.construct []).no_of_rows = none ∧
    CommentUnit.getData (CommentUnit.construct []) =
      .error (.attributeError "no_of_rows") :=
  ⟨rfl, rfl⟩

/-- C5 counterexample: the code strips leading whitespace too. On a COMMENT
block whose single content line is `"  hi"`, `readUnitData` stores `"hi"`,
while stripping only trailing whitespace (as the claim states) would have
left `"  hi"` unchanged. -/
theorem c5_comment_read_strips_leading_cex :
    CommentUnit.readUnitData (CommentUnit.construct []) c5data 0 =
      .ok (⟨some 1, ["hi".toList]⟩, 2) ∧
    pyRstrip "  hi".toList = "  hi".toList ∧
    ("hi".toList : Line) ≠ "  hi".toList ∧
    getLine c5data 2 = "  hi".toList :=
  ⟨rfl, rfl, by decide, rfl⟩

/-- C5 amended: for a well-formed COMMENT block at the cursor (count line
parseable as the integer N, at least N further lines), `readUnitData` on a
fresh unit stores exactly the N subsequent lines altered only by stripping
leading and trailing whitespace from each, and returns `cursor + 1 + N`. -/
theorem c5_comment_read_amended (data : List Line) (c N : Nat)
    (hN : pyInt? (pyStrip (getLine data (c + 1))) = some (N : Int))
    (hlen : c + 2 + N ≤ data.length) :
    CommentUnit.readUnitData (CommentUnit.construct []) data c =
      .ok (⟨some ((N : Nat) : Int), ((data.drop (c + 2)).take N).map pyStrip⟩,
        c + 1 + N) := by
  simp only [CommentUnit.readUnitData, hN]
  rw [show CommentUnit.construct [] = ⟨none, []⟩ from rfl]
  simp only [Int.toNat_natCast, List.nil_append]
  rw [show (fun i => pyStrip (getLine data (c + 2 + i))) =
        pyStrip ∘ (fun i => getLine data (c + 2 + i)) from rfl,
      ← List.map_map, range_map_getD_eq_take_drop data (c + 2) N hlen]

/-- C5 witness: the amended theorem at the concrete block `c5data`. -/
theorem c5_comment_read_amended_witness :
    pyInt? (pyStrip (getLine c5data 1)) = some ((1 : Nat) : Int) ∧
    0 + 2 + 1 ≤ c5data.length ∧
    CommentUnit.readUnitData (CommentUnit.construct []) c5data 0 =
      .ok (⟨some ((1 : Nat) : Int), ((c5data.drop 2).take 1).map pyStrip⟩,
        0 + 1 + 1) :=
  ⟨rfl, by decide, c5_comment_read_amended c5data 0 1 rfl (by decide)⟩

/-- C7: when the stored `no_of_rows` is lower than the number of lines held,
`getData` clamps the output to `no_of_rows + 2` lines: the tag, the count and
the first `no_of_rows` stored lines. -/
theorem c7_comment_truncation (lines : List Line) (n : Nat)
    (h : n < lines.length) :
    CommentUnit.getData ⟨some ((n : Nat) : Int), lines⟩ =
      .ok (ljust10 "COMMENT".toList :: rjust10 (intChars ((n : Nat) : Int)) ::
        lines.take n) ∧
    (ljust10 "COMMENT".toList :: rjust10 (intChars ((n : Nat) : Int)) ::
        lines.take n).length = n + 2 := by
  constructor
  · simp only [CommentUnit.getData]
    rw [if_pos (by simp [List.length_cons]; omega)]
    rw [pySliceTo, if_pos (by positivity)]
    rw [show (((n : Nat) : Int) + 2).toNat = n + 2 by omega]
    rw [show n + 2 = n + 1 + 1 from rfl, List.take_succ_cons, List.take_succ_cons]
  · simp [List.length_take]
    omega

/-- C7 witness: the truncation theorem at a concrete three-line state with a
stored count of 1. -/
theorem c7_comment_truncation_witness :
    1 < (["a".toList, "b".toList, "c".toList] : List Line).length ∧
    CommentUnit.getData ⟨some ((1 : Nat) : Int), ["a".toList, "b".toList, "c".toList]⟩ =
      .ok (ljust10 "COMMENT".toList :: rjust10 (intChars ((1 : Nat) : Int)) ::
        (["a".toList, "b".toList, "c".toList] : List Line).take 1) :=
  ⟨by decide, (c7_comment_truncation ["a".toList, "b".toList, "c".toList] 1 (by decide)).1⟩

/-- C8: on a unit with a non-empty row collection, `addRow` with an index at
or beyond the current row count is identical to `addRow` with no index — the
comparison turns the index into `None` and the collection appends the row at
the end. -/
theorem c8_addRow_append_equiv (u : AIsisUnit) (key : String) (vals : List Int)
    (i : Nat) (col : RowDataCollection)
    (hcol : u.row_data.lookup key = some col)
    (hne : col.rows ≠ []) (hi : col.numberOfRows ≤ i) :
    u.addRow vals key (some i) = u.addRow vals key none ∧
    u.addRow vals key (some i) =
      .ok ⟨u.has_datarows,
        updateRowData u.row_data key ⟨col.colKeys, col.rows ++ [vals]⟩⟩ := by
  simp [AIsisUnit.addRow, hcol, py2GeOptNat, hi, RowDataCollection.addRow]

/-- C8 witness: the append-equivalence theorem at a concrete two-row unit
and index 5. -/
theorem c8_addRow_append_equiv_witness :
    c8Unit.row_data.lookup "main" =
      some ({ colKeys := ["chainage"], rows := [[1], [3]] } : RowDataCollection) ∧
    ({ colKeys := ["chainage"], rows := [[1], [3]] } : RowDataCollection).rows ≠ [] ∧
    ({ colKeys := ["chainage"], rows := [[1], [3]] } : RowDataCollection).numberOfRows ≤ 5 ∧
    c8Unit.addRow [9] "main" (some 5) = c8Unit.addRow [9] "main" none :=
  ⟨rfl, by decide, by decide,
    (c8_addRow_append_equiv c8Unit "main" [9] 5
      { colKeys := ["chainage"], rows := [[1], [3]] } rfl (by decide) (by decide)).1⟩

lemma addCommentText_sync (s : CommentUnit) (t : Line) :
    (s.addCommentText t).no_of_rows =
      some (((s.addCommentText t).data.length : Nat) : Int) := by
  simp [CommentUnit.addCommentText]

lemma foldl_addCommentText_sync (ts : List Line) (s : CommentUnit)
    (h : s.no_of_rows = some ((s.data.length : Nat) : Int)) :
    (ts.foldl CommentUnit.addCommentText s).no_of_rows =
      some (((ts.foldl CommentUnit.addCommentText s).data.length : Nat) : Int) := by
  induction ts generalizing s with
  | nil => exact h
  | cons t ts ih => exact ih _ (addCommentText_sync s t)

lemma foldl_addCommentText_data (ts : List Line) (s : CommentUnit) :
    (ts.foldl CommentUnit.addCommentText s).data =
      s.data ++ (ts.map (fun t => (splitNl t).map pyStrip)).flatten := by
  induction ts generalizing s with
  | nil => simp
  | cons t ts ih =>
    simp [List.foldl_cons, ih, CommentUnit.addCommentText, List.append_assoc]

lemma foldl_addCommentText_length (ts : List Line) :
    (ts.foldl CommentUnit.addCommentText (CommentUnit.construct [])).data.length
      = countLines ts := by
  rw [foldl_addCommentText_data,
    show CommentUnit.construct [] = ⟨none, []⟩ from rfl]
  simp [countLines, List.length_flatten, List.map_map, Function.comp]
  congr 1
  apply List.map_congr_left
  intro t _
  simp [Function.comp]

/-- C6: after populating a fresh `CommentUnit` exclusively through one or
more `addCommentText` calls contributing `countLines ts` lines in total,
`getData` emits exactly `countLines ts + 2` lines: the tag `COMMENT`
left-justified in 10 characters, the count right-justified in 10 characters,
then the stored lines in order. -/
theorem c6_comment_write_shape (ts : List Line) (hts : ts ≠ []) :
    CommentUnit.getData (ts.foldl CommentUnit.addCommentText (CommentUnit.construct [])) =
      .ok (ljust10 "COMMENT".toList ::
        rjust10 (intChars ((countLines ts : Nat) : Int)) ::
        (ts.foldl CommentUnit.addCommentText (CommentUnit.construct [])).data) ∧
    (ts.foldl CommentUnit.addCommentText (CommentUnit.construct [])).data.length
      = countLines ts ∧
    (ljust10 "COMMENT".toList ::
        rjust10 (intChars ((countLines ts : Nat) : Int)) ::
        (ts.foldl CommentUnit.addCommentText (CommentUnit.construct [])).data).length
      = countLines ts + 2 := by
  have hlen := foldl_addCommentText_length ts
  have hsync : (ts.foldl CommentUnit.addCommentText (CommentUnit.construct [])).no_of_rows
      = some ((countLines ts : Nat) : Int) := by
    rcases ts with _ | ⟨t, ts'⟩
    · exact absurd rfl hts
    · rw [List.foldl_cons,
        foldl_addCommentText_sync ts' _ (addCommentText_sync _ t)]
      rw [List.foldl_cons] at hlen
      rw [hlen]
  refine ⟨?_, hlen, by simp [List.length_cons, hlen]⟩
  simp only [CommentUnit.getData, hsync]
  rw [if_neg (by simp [List.length_cons, hlen]; omega)]

/-- C6 witness: the write-shape theorem applied after one `addCommentText`
call carrying two newline-separated lines. -/
theorem c6_comment_write_shape_witness :
    (["ab\ncd".toList] : List Line) ≠ [] ∧
    CommentUnit.getData
        (List.foldl CommentUnit.addCommentText (CommentUnit.construct [])
          ["ab\ncd".toList]) =
      .ok (ljust10 "COMMENT".toList ::
        rjust10 (intChars ((countLines ["ab\ncd".toList] : Nat) : Int)) ::
        (List.foldl CommentUnit.addCommentText (CommentUnit.construct [])
          ["ab\ncd".toList]).data) :=
  ⟨by decide, (c6_comment_write_shape ["ab\ncd".toList] (by decide)).1⟩

/-- C4: for any input of at least 7 raw lines and any cursor,
`HeaderUnit.readUnitData` advances the cursor by exactly 7 and builds one
typed field per row of the declared table, slicing the fixed character
ranges and stripping the surrounding whitespace: `name` and `revision` from
whole lines 0 and 1, the line-2 columns 0-10/10-20/20-30/30-40/40-50/50-60
as int, four floats (precision 3) and text, the line-3 columns 0-10 through
60-70 as floats (precision 3), and `roughness` from the whole of line 5. -/
theorem c4_header_read_fields (data : List Line) (cursor : Nat)
    (h7 : 7 ≤ data.length) :
    HeaderUnit.readUnitData data cursor =
      (⟨⟨pyStrip (getLine data 0), false, 0, 0, DType.string, none⟩,
        ⟨pyStrip (getLine data 1), true, 1, 0, DType.string, none⟩,
        ⟨pyStrip (pySlice (getLine data 2) 0 10), true, 2, 0, DType.int, none⟩,
        ⟨pyStrip (pySlice (getLine data 2) 10 20), true, 2, 1, DType.float, some 3⟩,
        ⟨pyStrip (pySlice (getLine data 2) 20 30), true, 2, 2, DType.float, some 3⟩,
        ⟨pyStrip (pySlice (getLine data 2) 30 40), true, 2, 3, DType.float, some 3⟩,
        ⟨pyStrip (pySlice (getLine data 2) 40 50), true, 2, 4, DType.float, some 3⟩,
        ⟨pyStrip (pySlice (getLine data 2) 50 60), true, 2, 5, DType.string, none⟩,
        ⟨pyStrip (pySlice (getLine data 3) 0 10), true, 3, 0, DType.float, some 3⟩,
        ⟨pyStrip (pySlice (getLine data 3) 10 20), true, 3, 1, DType.float, some 3⟩,
        ⟨pyStrip (pySlice (getLine data 3) 20 30), true, 3, 2, DType.float, some 3⟩,
        ⟨pyStrip (pySlice (getLine data 3) 30 40), true, 3, 3, DType.float, some 3⟩,
        ⟨pyStrip (pySlice (getLine data 3) 40 50), true, 3, 4, DType.float, some 3⟩,
        ⟨pyStrip (pySlice (getLine data 3) 50 60), true, 3, 5, DType.float, some 3⟩,
        ⟨pyStrip (pySlice (getLine data 3) 60 70), true, 3, 6, DType.float, some 3⟩,
        ⟨pyStrip (getLine data 5), true, 5, 0, DType.string, none⟩⟩,
       cursor + 7) :=
  rfl

/-- C4 witness: the field-table theorem at the concrete block `c4Data` and
cursor 3. -/
theorem c4_header_read_fields_witness :
    7 ≤ c4Data.length ∧
    HeaderUnit.readUnitData c4Data 3 =
      (⟨⟨pyStrip (getLine c4Data 0), false, 0, 0, DType.string, none⟩,
        ⟨pyStrip (getLine c4Data 1), true, 1, 0, DType.string, none⟩,
        ⟨pyStrip (pySlice (getLine c4Data 2) 0 10), true, 2, 0, DType.int, none⟩,
        ⟨pyStrip (pySlice (getLine c4Data 2) 10 20), true, 2, 1, DType.float, some 3⟩,
        ⟨pyStrip (pySlice (getLine c4Data 2) 20 30), true, 2, 2, DType.float, some 3⟩,
        ⟨pyStrip (pySlice (getLine c4Data 2) 30 40), true, 2, 3, DType.float, some 3⟩,
        ⟨pyStrip (pySlice (getLine c4Data 2) 40 50), true, 2, 4, DType.float, some 3⟩,
        ⟨pyStrip (pySlice (getLine c4Data 2) 50 60), true, 2, 5, DType.string, none⟩,
        ⟨pyStrip (pySlice (getLine c4Data 3) 0 10), true, 3, 0, DType.float, some 3⟩,
        ⟨pyStrip (pySlice (getLine c4Data 3) 10 20), true, 3, 1, DType.float, some 3⟩,
        ⟨pyStrip (pySlice (getLine c4Data 3) 20 30), true, 3, 2, DType.float, some 3⟩,
        ⟨pyStrip (pySlice (getLine c4Data 3) 30 40), true, 3, 3, DType.float, some 3⟩,
        ⟨pyStrip (pySlice (getLine c4Data 3) 40 50), true, 3, 4, DType.float, some 3⟩,
        ⟨pyStrip (pySlice (getLine c4Data 3) 50 60), true, 3, 5, DType.float, some 3⟩,
        ⟨pyStrip (pySlice (getLine c4Data 3) 60 70), true, 3, 6, DType.float, some 3⟩,
        ⟨pyStrip (getLine c4Data 5), true, 5, 0, DType.string, none⟩⟩,
       3 + 7) :=
  ⟨by decide, c4_header_read_fields c4Data 3 (by decide)⟩

lemma field_facts (l : Line) (a b : Nat) (hab : b ≤ a + 10) (hl : '\n' ∉ l) :
    (pyStrip (pySlice l a b)).length ≤ 10 ∧
    pyStrip (pyStrip (pySlice l a b)) = pyStrip (pySlice l a b) ∧
    '\n' ∉ pyStrip (pySlice l a b) :=
  ⟨(pyStrip_length_le _).trans ((pySlice_length_le l a b).trans (by omega)),
   pyStrip_idem _,
   fun hm => hl (pySlice_subset l a b (pyStrip_subset _ hm))⟩

lemma read_cols (vs : List Line) (hv : ∀ v ∈ vs, v.length ≤ 10) :
    ∀ i, i < vs.length →
      pySlice ((vs.map rjust10).flatten) (10 * i) (10 * i + 10) =
        rjust10 (vs.getD i []) := by
  induction vs with
  | nil => intro i hi; simp at hi
  | cons v vs ih =>
    intro i hi
    have h10 : (rjust10 v).length = 10 :=
      rjust10_length v (hv v (List.mem_cons_self v vs))
    cases i with
    | zero =>
      simp only [List.map_cons, List.flatten_cons, Nat.mul_zero, Nat.zero_add,
        List.getD_cons_zero]
      exact pySlice_ten_left h10
    | succ j =>
      rw [List.map_cons, List.flatten_cons,
        pySlice_append_shift h10 (by omega) (by omega),
        show 10 * (j + 1) - 10 = 10 * j by omega,
        show 10 * (j + 1) + 10 - 10 = 10 * j + 10 by omega,
        List.getD_cons_succ]
      exact ih (fun v hv' => hv v (List.mem_cons_of_mem _ hv')) j (by simpa using hi)

lemma read_col6 (v1 v2 v3 v4 v5 v6 : Line)
    (h1 : v1.length ≤ 10) (h2 : v2.length ≤ 10) (h3 : v3.length ≤ 10)
    (h4 : v4.length ≤ 10) (h5 : v5.length ≤ 10) (h6 : v6.length ≤ 10) :
    ∀ i, i < 6 →
      pySlice (rjust10 v1 ++ (rjust10 v2 ++ (rjust10 v3 ++ (rjust10 v4 ++
          (rjust10 v5 ++ rjust10 v6))))) (10 * i) (10 * i + 10) =
        rjust10 ([v1, v2, v3, v4, v5, v6].getD i []) := by
  have h := read_cols [v1, v2, v3, v4, v5, v6] (by
    intro v hv
    simp at hv
    rcases hv with rfl | rfl | rfl | rfl | rfl | rfl <;> assumption)
  simp only [List.map_cons, List.map_nil, List.flatten_cons, List.flatten_nil,
    List.append_nil, List.length_cons, List.length_nil] at h
  intro i hi
  exact h i (by omega)

lemma read_col7 (v1 v2 v3 v4 v5 v6 v7 : Line)
    (h1 : v1.length ≤ 10) (h2 : v2.length ≤ 10) (h3 : v3.length ≤ 10)
    (h4 : v4.length ≤ 10) (h5 : v5.length ≤ 10) (h6 : v6.length ≤ 10)
    (h7 : v7.length ≤ 10) :
    ∀ i, i < 7 →
      pySlice (rjust10 v1 ++ (rjust10 v2 ++ (rjust10 v3 ++ (rjust10 v4 ++
          (rjust10 v5 ++ (rjust10 v6 ++ rjust10 v7)))))) (10 * i) (10 * i + 10) =
        rjust10 ([v1, v2, v3, v4, v5, v6, v7].getD i []) := by
  have h := read_cols [v1, v2, v3, v4, v5, v6, v7] (by
    intro v hv
    simp at hv
    rcases hv with rfl | rfl | rfl | rfl | rfl | rfl | rfl <;> assumption)
  simp only [List.map_cons, List.map_nil, List.flatten_cons, List.flatten_nil,
    List.append_nil, List.length_cons, List.length_nil] at h
  intro i hi
  exact h i (by omega)

lemma strip_rjust_strip (l : Line) : pyStrip (rjust10 (pyStrip l)) = pyStrip l := by
  rw [pyStrip_rjust10, pyStrip_idem]

lemma splitNl_sixseven (x1 x2 x3 x4 x5 x6 y1 y2 y3 y4 y5 y6 y7 : Line)
    (hx1 : '\n' ∉ x1) (hx2 : '\n' ∉ x2) (hx3 : '\n' ∉ x3) (hx4 : '\n' ∉ x4)
    (hx5 : '\n' ∉ x5) (hx6 : '\n' ∉ x6)
    (hy1 : '\n' ∉ y1) (hy2 : '\n' ∉ y2) (hy3 : '\n' ∉ y3) (hy4 : '\n' ∉ y4)
    (hy5 : '\n' ∉ y5) (hy6 : '\n' ∉ y6) (hy7 : '\n' ∉ y7) :
    splitNl (x1 ++ (x2 ++ (x3 ++ (x4 ++ (x5 ++ (x6 ++ '\n' ::
        (y1 ++ (y2 ++ (y3 ++ (y4 ++ (y5 ++ (y6 ++ y7)))))))))))) =
      [x1 ++ (x2 ++ (x3 ++ (x4 ++ (x5 ++ x6)))),
       y1 ++ (y2 ++ (y3 ++ (y4 ++ (y5 ++ (y6 ++ y7)))))] := by
  have hY : '\n' ∉ y1 ++ (y2 ++ (y3 ++ (y4 ++ (y5 ++ (y6 ++ y7))))) := by
    simp only [List.mem_append, not_or]
    exact ⟨hy1, hy2, hy3, hy4, hy5, hy6, hy7⟩
  exact splitNl_append x1 hx1 (splitNl_append x2 hx2 (splitNl_append x3 hx3
    (splitNl_append x4 hx4 (splitNl_append x5 hx5
      ((splitNl_block x6 _ hx6).trans (by rw [splitNl_no_nl _ hY]))))))

/-- C3: for a well-formed HEADER block of exactly 7 newline-free lines,
writing the unit after reading it (`getData` after `readUnitData`) and
reading the written lines back reproduces exactly the same field values —
the written block lays every width-10 field out in its declared width-10
column, so re-slicing recovers each stripped value. -/
theorem c3_header_roundtrip (data : List Line) (h7 : data.length = 7)
    (hnl : ∀ l ∈ data, '\n' ∉ l) :
    (HeaderUnit.readUnitData (HeaderUnit.getData
        (HeaderUnit.readUnitData data 0).1) 0).1 =
      (HeaderUnit.readUnitData data 0).1 := by
  rcases data with _ | ⟨d0, _ | ⟨d1, _ | ⟨d2, _ | ⟨d3, _ | ⟨d4, _ | ⟨d5, _ | ⟨d6, rest⟩⟩⟩⟩⟩⟩⟩ <;>
    simp only [List.length_cons, List.length_nil] at h7 <;> try omega
  obtain rfl : rest = [] := List.length_eq_zero.mp (by omega)
  have hd0 : '\n' ∉ d0 := hnl d0 (by simp)
  have hd1 : '\n' ∉ d1 := hnl d1 (by simp)
  have hd2 : '\n' ∉ d2 := hnl d2 (by simp)
  have hd3 : '\n' ∉ d3 := hnl d3 (by simp)
  have hd5 : '\n' ∉ d5 := hnl d5 (by simp)
  obtain ⟨L20, S20, N20⟩ := field_facts d2 0 10 (by omega) hd2
  obtain ⟨L21, S21, N21⟩ := field_facts d2 10 20 (by omega) hd2
  obtain ⟨L22, S22, N22⟩ := field_facts d2 20 30 (by omega) hd2
  obtain ⟨L23, S23, N23⟩ := field_facts d2 30 40 (by omega) hd2
  obtain ⟨L24, S24, N24⟩ := field_facts d2 40 50 (by omega) hd2
  obtain ⟨L25, S25, N25⟩ := field_facts d2 50 60 (by omega) hd2
  obtain ⟨L30, S30, N30⟩ := field_facts d3 0 10 (by omega) hd3
  obtain ⟨L31, S31, N31⟩ := field_facts d3 10 20 (by omega) hd3
  obtain ⟨L32, S32, N32⟩ := field_facts d3 20 30 (by omega) hd3
  obtain ⟨L33, S33, N33⟩ := field_facts d3 30 40 (by omega) hd3
  obtain ⟨L34, S34, N34⟩ := field_facts d3 40 50 (by omega) hd3
  obtain ⟨L35, S35, N35⟩ := field_facts d3 50 60 (by omega) hd3
  obtain ⟨L36, S36, N36⟩ := field_facts d3 60 70 (by omega) hd3
  have hn0 : '\n' ∉ pyStrip d0 := fun hm => hd0 (pyStrip_subset _ hm)
  have hn1 : '\n' ∉ rjust10 (pyStrip d1) :=
    nl_not_mem_rjust10 _ (fun hm => hd1 (pyStrip_subset _ hm))
  have hcol2 := read_col6 _ _ _ _ _ _ L20 L21 L22 L23 L24 L25
  have hcol3 := read_col7 _ _ _ _ _ _ _ L30 L31 L32 L33 L34 L35 L36
  have e20 := hcol2 0 (by norm_num)
  have e21 := hcol2 1 (by norm_num)
  have e22 := hcol2 2 (by norm_num)
  have e23 := hcol2 3 (by norm_num)
  have e24 := hcol2 4 (by norm_num)
  have e25 := hcol2 5 (by norm_num)
  have e30 := hcol3 0 (by norm_num)
  have e31 := hcol3 1 (by norm_num)
  have e32 := hcol3 2 (by norm_num)
  have e33 := hcol3 3 (by norm_num)
  have e34 := hcol3 4 (by norm_num)
  have e35 := hcol3 5 (by norm_num)
  have e36 := hcol3 6 (by norm_num)
  norm_num at e20 e21 e22 e23 e24 e25 e30 e31 e32 e33 e34 e35 e36
  simp only [HeaderUnit.readUnitData, HeaderUnit.getData, HeadDataItem.format,
    List.map_cons, List.map_nil, List.flatten_cons, List.flatten_nil, getLine,
    List.getD_cons_zero, List.getD_cons_succ]
  norm_num
  rw [splitNl_block _ _ hn0, splitNl_block _ _ hn1,
    splitNl_sixseven _ _ _ _ _ _ _ _ _ _ _ _ _
      (nl_not_mem_rjust10 _ N20) (nl_not_mem_rjust10 _ N21)
      (nl_not_mem_rjust10 _ N22) (nl_not_mem_rjust10 _ N23)
      (nl_not_mem_rjust10 _ N24) (nl_not_mem_rjust10 _ N25)
      (nl_not_mem_rjust10 _ N30) (nl_not_mem_rjust10 _ N31)
      (nl_not_mem_rjust10 _ N32) (nl_not_mem_rjust10 _ N33)
      (nl_not_mem_rjust10 _ N34) (nl_not_mem_rjust10 _ N35)
      (nl_not_mem_rjust10 _ N36)]
  simp only [List.cons_append, List.nil_append, getLine,
    List.getD_cons_zero, List.getD_cons_succ]
  simp [e20, e21, e22, e23, e24, e25, e30, e31, e32, e33, e34, e35, e36,
    strip_rjust_strip, pyStrip_idem]

/-- C3 witness: the round-trip theorem at the concrete block `c3Data`. -/
theorem c3_header_roundtrip_witness :
    c3Data.length = 7 ∧ (∀ l ∈ c3Data, '\n' ∉ l) ∧
    (HeaderUnit.readUnitData (HeaderUnit.getData
        (HeaderUnit.readUnitData c3Data 0).1) 0).1 =
      (HeaderUnit.readUnitData c3Data 0).1 :=
  ⟨rfl, by decide, c3_header_roundtrip c3Data rfl (by decide)⟩
